import Mathlib

/-!
# ConnectSphere_Server — real-time layer, shallow embedding

Shallow embedding of the Connection & Presence Registry, the Conversation
Fan-out engine, the Conversation Identity Resolver and the Read-State /
Unread Accounting of ConnectSphere_Server, translated from
`src/websocket.js` and the conversations router (`src/unnamed/part_003`)
and communities router (`src/unnamed/part_007`).

The durable store (Supabase) is modelled as lists of rows of the five
logical tables named in the spec (§6): users, conversations,
conversation_members, messages, message_reads, plus community_members used
by the community-chat paths.  Store reads/writes that the code checks for
errors are modelled with `Option`-valued query results or explicit failure
flags where a claim depends on the error branch.
-/

namespace ConnectSphere

/-! ## Data model (rows of the logical tables) -/

/-- Row of `conversations`: `type` ∈ dm | group | community;
`community_id` is set only for community-backed conversations. -/
structure ConvRow where
  id : Nat
  type : String
  community_id : Option Nat
  created_by : String
deriving DecidableEq, Repr

/-- Row of `conversation_members`, unique per (conversation_id, username). -/
structure MemberRow where
  conversation_id : Nat
  username : String
  role : String
deriving DecidableEq, Repr

/-- Row of `messages`; `id` is assigned by the store (monotonic). -/
structure MessageRow where
  id : Nat
  conversation_id : Nat
  sender_username : String
  content : String
  reply_to_message_id : Option Nat
deriving DecidableEq, Repr

/-- Row of `message_reads`, unique per (message_id, username). -/
structure ReadRow where
  message_id : Nat
  username : String
deriving DecidableEq, Repr

/-- Row of `community_members`; `status` is "approved" for full members
(the store default on insert), `role` ∈ member/moderator/admin. -/
structure CommunityMemberRow where
  community_id : Nat
  username : String
  role : String
  status : String
deriving DecidableEq, Repr

/-- Row of `community_join_requests`; `status` ∈ pending/approved/rejected. -/
structure JoinRequestRow where
  id : Nat
  community_id : Nat
  username : String
  status : String
deriving DecidableEq, Repr

/-- The durable store: the logical tables plus the id counters the store
uses to assign fresh primary keys. -/
structure Store where
  users : List String
  conversations : List ConvRow
  conversation_members : List MemberRow
  messages : List MessageRow
  message_reads : List ReadRow
  community_members : List CommunityMemberRow
  community_join_requests : List JoinRequestRow
  nextConversationId : Nat
  nextMessageId : Nat
deriving DecidableEq, Repr

/-! ## Connection & Presence Registry (src/websocket.js lines 18-95, 545-586)

The code keeps `onlineUsers = new Map()` mapping a username to a single
`socket.id` (line 19).  On successful authentication (lines 63-84) the
handler sets `socket.username`, overwrites the map entry, updates
`users.is_online = true` and broadcasts `user_status {isOnline: true}`.
On `disconnect` (lines 545-586) the handler, whenever the closure's
`currentUsername` is set, deletes the map entry, updates
`users.is_online = false` and broadcasts `user_status {isOnline: false}` —
regardless of whether other connections for the same username are open. -/

/-- An open real-time connection; `username` is `none` until the
`authenticate` step for this connection succeeds. -/
structure Conn where
  sid : Nat
  username : Option String
deriving DecidableEq, Repr

/-- Presence side effects: the persisted `is_online` write and the
`user_status` broadcast. -/
inductive PresenceEffect where
  | writePresence (username : String) (isOnline : Bool)
  | broadcastStatus (username : String) (isOnline : Bool)
deriving DecidableEq, Repr

/-- Registry events: a transport-level connection opens, authentication
succeeds binding it to a username, or it closes. -/
inductive WsEvent where
  | connect (sid : Nat)
  | authOk (sid : Nat) (username : String)
  | disconnect (sid : Nat)
deriving DecidableEq, Repr

/-- State of the registry: the single-slot `onlineUsers` map
(username → socket.id) and the set of open connections. -/
structure PresenceState where
  onlineUsers : List (String × Nat)
  conns : List Conn
deriving DecidableEq, Repr

/-- `Map.set`: overwrite the slot for `k` (JS `onlineUsers.set`). -/
def mapSet (m : List (String × Nat)) (k : String) (v : Nat) : List (String × Nat) :=
  (k, v) :: m.filter (fun p => p.1 ≠ k)

/-- One step of the registry, returning the successor state and the
presence effects the handler performs (in order). -/
def presenceStep (st : PresenceState) : WsEvent → PresenceState × List PresenceEffect
  | .connect sid =>
      ({ st with conns := st.conns ++ [{ sid := sid, username := none }] }, [])
  | .authOk sid u =>
      ({ onlineUsers := mapSet st.onlineUsers u sid,
         conns := st.conns.map (fun c => if c.sid = sid then { c with username := some u } else c) },
       [.writePresence u true, .broadcastStatus u true])
  | .disconnect sid =>
      let user := (st.conns.find? (fun c => c.sid = sid)).bind Conn.username
      let conns := st.conns.filter (fun c => c.sid ≠ sid)
      match user with
      | some u =>
          ({ onlineUsers := st.onlineUsers.filter (fun p => p.1 ≠ u), conns := conns },
           [.writePresence u false, .broadcastStatus u false])
      | none => ({ st with conns := conns }, [])

/-- Run a trace of registry events from a state, collecting all effects. -/
def presenceRun (st : PresenceState) : List WsEvent → PresenceState × List PresenceEffect
  | [] => (st, [])
  | e :: es =>
      let r1 := presenceStep st e
      let r2 := presenceRun r1.1 es
      (r2.1, r1.2 ++ r2.2)

/-- The empty registry state. -/
def presenceInit : PresenceState := { onlineUsers := [], conns := [] }

/-- Trace: identity "u" opens and authenticates two simultaneous
connections (sids 1 and 2), then closes connection 1 while 2 stays open. -/
def c1Trace : List WsEvent :=
  [.connect 1, .authOk 1 "u", .connect 2, .authOk 2 "u", .disconnect 1]

/-- C1: refuted on the code.  With two simultaneous authenticated
connections for identity "u", closing one of them while the other remains
open makes the disconnect handler write `is_online = false` and broadcast
a `user_status offline` for "u": the single-slot `onlineUsers` map
(src/websocket.js line 19) and the unconditional offline write in the
disconnect handler (lines 558-581) produce a spurious offline event, which
the claim (and spec §4.1) say must never happen while a connection for the
identity is still open. -/
theorem c1_single_slot_spurious_offline :
    PresenceEffect.writePresence "u" false ∈ (presenceRun presenceInit c1Trace).2 ∧
    PresenceEffect.broadcastStatus "u" false ∈ (presenceRun presenceInit c1Trace).2 ∧
    ∃ c ∈ (presenceRun presenceInit c1Trace).1.conns, c.username = some "u" := by
  decide

/-! ## Sockets, rooms and the send_message fan-out
(src/websocket.js lines 116-127, 131-221)

`join_conversation` / `leave_conversation` (lines 116-127) join/leave the
room named after the conversation with **no membership check**.  The
`send_message` handler (lines 131-221): (1) verifies the payload's
`senderUsername` is a member of the conversation, rejecting with an
`error` emit otherwise; (2) inserts the message (on store error: `error`
emit to the sender, return); (4) fetches the participant list from
`conversation_members`; (5) acks `message_sent` to the sender; (6) for
every participant, every socket whose stored `socket.username` matches is
auto-joined to the room and receives `new_message` directly; (7) finally
`new_message` is broadcast to the room. -/

/-- A broadcast room: one per conversation id, one per community-chat id. -/
inductive Room where
  | conversation (id : Nat)
  | communityChat (id : Nat)
deriving DecidableEq, Repr

/-- A live socket: its id, the `socket.username` stored at auth time, and
the set of rooms it has joined. -/
structure Socket where
  sid : Nat
  username : Option String
  rooms : List Room
deriving DecidableEq, Repr

/-- `socket.join(room)` (idempotent). -/
def joinRoom (r : Room) (s : Socket) : Socket :=
  if r ∈ s.rooms then s else { s with rooms := s.rooms ++ [r] }

/-- The `send_message` payload (all fields client-supplied). -/
structure SendMessagePayload where
  conversationId : Nat
  senderUsername : String
  content : String
  replyToMessageId : Option Nat
deriving DecidableEq, Repr

/-- Membership test of `send_message` step 1: any `conversation_members`
row matching (conversationId, senderUsername). -/
def isConversationMember (st : Store) (cid : Nat) (u : String) : Bool :=
  st.conversation_members.any (fun m => m.conversation_id = cid ∧ m.username = u)

/-- The participant usernames of a conversation, as fetched by
`send_message` step 4. -/
def participantsOf (st : Store) (cid : Nat) : List String :=
  (st.conversation_members.filter (fun m => m.conversation_id = cid)).map
    (fun m => m.username)

/-- Result of one `send_message` handler run: the store, the (possibly
auto-joined) sockets, and the socket ids targeted by each emit kind, with
multiplicity and in emission order. -/
structure SendMessageResult where
  store : Store
  sockets : List Socket
  errorTo : List Nat
  messageSentTo : List Nat
  newMessageTo : List Nat
deriving DecidableEq, Repr

/-- `send_message` handler.  `insertFails` models a store error on the
message insert (the `if (error)` branch at lines 168-172); `callerSid` is
the socket the event arrived on — the handler consults the caller only to
target its `error` / `message_sent` emits, never for membership or for the
persisted sender. -/
def handleSendMessage (insertFails : Bool) (callerSid : Nat) (sockets : List Socket)
    (st : Store) (p : SendMessagePayload) : SendMessageResult :=
  if ¬ isConversationMember st p.conversationId p.senderUsername then
    { store := st, sockets := sockets, errorTo := [callerSid],
      messageSentTo := [], newMessageTo := [] }
  else if insertFails then
    { store := st, sockets := sockets, errorTo := [callerSid],
      messageSentTo := [], newMessageTo := [] }
  else
    let msg : MessageRow :=
      { id := st.nextMessageId, conversation_id := p.conversationId,
        sender_username := p.senderUsername, content := p.content,
        reply_to_message_id := p.replyToMessageId }
    let st1 := { st with messages := st.messages ++ [msg],
                         nextMessageId := st.nextMessageId + 1 }
    let room := Room.conversation p.conversationId
    let participants := participantsOf st1 p.conversationId
    -- step 6: auto-join every participant's sockets to the room …
    let sockets1 := sockets.map (fun s =>
        if (s.username.elim false (fun u => participants.contains u)) then joinRoom room s else s)
    -- … emitting new_message directly to each matching socket …
    let direct := participants.flatMap (fun u =>
        (sockets.filter (fun s => s.username = some u)).map (fun s => s.sid))
    -- step 7: … then broadcast new_message to the room (post-join).
    let roomRecipients := (sockets1.filter (fun s => room ∈ s.rooms)).map (fun s => s.sid)
    { store := st1, sockets := sockets1,
      errorTo := [], messageSentTo := [callerSid],
      newMessageTo := direct ++ roomRecipients }

/-- C5: confirmed.  If the payload's sender is not a current member, or the
authoritative message insert fails, `send_message` has no effect on the
store and on room membership, emits `error` to the caller's connection
only, and broadcasts nothing (no `message_sent`, no `new_message`). -/
theorem send_message_reject_and_abort_clean
    (insertFails : Bool) (callerSid : Nat) (sockets : List Socket)
    (st : Store) (p : SendMessagePayload)
    (h : isConversationMember st p.conversationId p.senderUsername = false ∨
         insertFails = true) :
    handleSendMessage insertFails callerSid sockets st p =
      { store := st, sockets := sockets, errorTo := [callerSid],
        messageSentTo := [], newMessageTo := [] } := by
  rcases h with h | h
  · simp [handleSendMessage, h]
  · subst h
    by_cases hm : isConversationMember st p.conversationId p.senderUsername <;>
      simp [handleSendMessage, hm]

/-- Fixture: a direct conversation 1 with members alice and bob. -/
def pairStore : Store :=
  { users := ["alice", "bob", "dave"],
    conversations := [{ id := 1, type := "dm", community_id := none, created_by := "alice" }],
    conversation_members :=
      [{ conversation_id := 1, username := "alice", role := "admin" },
       { conversation_id := 1, username := "bob", role := "member" }],
    messages := [], message_reads := [], community_members := [],
    community_join_requests := [],
    nextConversationId := 2, nextMessageId := 1 }

/-- Witness for C5 at a concrete input: sender "mallory" is not a member
of conversation 1, so the publish is rejected with no effect. -/
theorem send_message_reject_and_abort_clean_witness :
    isConversationMember pairStore 1 "mallory" = false ∧
    handleSendMessage false 7 [] pairStore
      { conversationId := 1, senderUsername := "mallory", content := "hi",
        replyToMessageId := none } =
      { store := pairStore,
        sockets := [], errorTo := [7], messageSentTo := [], newMessageTo := [] } :=
  ⟨by decide,
   send_message_reject_and_abort_clean false 7 [] _ _ (Or.inl (by decide))⟩

/-- C8: confirmed.  The membership check and the persisted message use
only the client-supplied `senderUsername` from the payload: two
connections authenticated as different identities submitting the same
payload produce the same store (the connection's identity never flows
into the publish), and every message the handler persists carries
`sender_username = payload.senderUsername`. -/
theorem send_message_persistence_independent_of_identity
    (insertFails : Bool) (a b : Socket) (socksA socksB : List Socket)
    (st : Store) (p : SendMessagePayload)
    (hab : a.username ≠ b.username) :
    (handleSendMessage insertFails a.sid socksA st p).store =
      (handleSendMessage insertFails b.sid socksB st p).store ∧
    ∀ m ∈ (handleSendMessage insertFails a.sid socksA st p).store.messages,
      m ∈ st.messages ∨ m.sender_username = p.senderUsername := by
  unfold handleSendMessage
  by_cases hm : isConversationMember st p.conversationId p.senderUsername
  · by_cases hf : insertFails
    · constructor
      · simp [hm, hf]
      · intro m hmem
        simp only [hm, not_true, if_neg, if_pos, hf] at hmem ⊢
        simp [hm, hf] at hmem
        exact Or.inl hmem
    · constructor
      · simp [hm, hf]
      · intro m hmem
        simp [hm, hf, List.mem_append] at hmem
        rcases hmem with h | h
        · exact Or.inl h
        · right; rw [h]
  · constructor
    · simp [hm]
    · intro m hmem
      simp [hm] at hmem
      exact Or.inl hmem

/-- Witness for C8 at a concrete input: sockets authenticated as "alice"
and as "bob" submit the same payload naming "bob" as sender; the resulting
stores coincide. -/
theorem send_message_persistence_independent_of_identity_witness :
    ((⟨10, some "alice", []⟩ : Socket).username ≠ (⟨20, some "bob", []⟩ : Socket).username) ∧
    ((handleSendMessage false (10 : Nat) [] pairStore
        { conversationId := 1, senderUsername := "bob", content := "hi",
          replyToMessageId := none }).store =
      (handleSendMessage false (20 : Nat) [] pairStore
        { conversationId := 1, senderUsername := "bob", content := "hi",
          replyToMessageId := none }).store) :=
  ⟨by decide,
   (send_message_persistence_independent_of_identity false
      ⟨10, some "alice", []⟩ ⟨20, some "bob", []⟩ [] [] _ _ (by decide)).1⟩

/-- A username is in the fetched participant list iff it passes the
membership check — both read the same `conversation_members` table. -/
theorem mem_participantsOf (st : Store) (cid : Nat) (u : String) :
    u ∈ participantsOf st cid ↔ isConversationMember st cid u = true := by
  simp only [participantsOf, isConversationMember, List.mem_map, List.mem_filter,
    List.any_eq_true, decide_eq_true_eq]
  constructor
  · rintro ⟨m, ⟨hm, hcid⟩, hu⟩
    exact ⟨m, hm, hcid, hu⟩
  · rintro ⟨m, hm, hcid, hu⟩
    exact ⟨m, ⟨hm, hcid⟩, hu⟩

/-- The auto-join of step 6 never changes a socket's id. -/
theorem joinStep_sid (room : Room) (cond : Bool) (s : Socket) :
    (if cond then joinRoom room s else s).sid = s.sid := by
  cases cond <;> simp [joinRoom] <;> split <;> rfl

/-- Appending a message leaves the fetched participant list unchanged:
`participantsOf` reads only `conversation_members`. -/
theorem participantsOf_set_messages (st : Store) (M : List MessageRow) (n : Nat) (cid : Nat) :
    participantsOf { st with messages := M, nextMessageId := n } cid =
      participantsOf st cid := rfl

/-- C2 (amended): every live connection whose authenticated identity is a
member of the conversation receives `new_message` at least once; a
connection receives it only if its identity is a member or it had itself
joined the conversation's room (`join_conversation` performs no membership
check, so a non-member in the room does receive the broadcast of step 7). -/
theorem send_message_delivery_members_or_room
    (callerSid : Nat) (sockets : List Socket) (st : Store) (p : SendMessagePayload)
    (hnodup : (sockets.map Socket.sid).Nodup)
    (hmem : isConversationMember st p.conversationId p.senderUsername = true) :
    (∀ s ∈ sockets, ∀ u, s.username = some u →
        isConversationMember st p.conversationId u = true →
        s.sid ∈ (handleSendMessage false callerSid sockets st p).newMessageTo) ∧
    (∀ s ∈ sockets,
        s.sid ∈ (handleSendMessage false callerSid sockets st p).newMessageTo →
        (∃ u, s.username = some u ∧ isConversationMember st p.conversationId u = true) ∨
        Room.conversation p.conversationId ∈ s.rooms) := by
  have hinj : ∀ x ∈ sockets, ∀ y ∈ sockets, x.sid = y.sid → x = y :=
    List.inj_on_of_nodup_map hnodup
  have hred : handleSendMessage false callerSid sockets st p =
      { store := { st with
          messages := st.messages ++
            [{ id := st.nextMessageId, conversation_id := p.conversationId,
               sender_username := p.senderUsername, content := p.content,
               reply_to_message_id := p.replyToMessageId }],
          nextMessageId := st.nextMessageId + 1 },
        sockets := sockets.map (fun s =>
          if (s.username.elim false (fun u =>
                (participantsOf st p.conversationId).contains u)) then
            joinRoom (Room.conversation p.conversationId) s
          else s),
        errorTo := [], messageSentTo := [callerSid],
        newMessageTo :=
          (participantsOf st p.conversationId).flatMap (fun u =>
            (sockets.filter (fun s => s.username = some u)).map (fun s => s.sid)) ++
          ((sockets.map (fun s =>
              if (s.username.elim false (fun u =>
                    (participantsOf st p.conversationId).contains u)) then
                joinRoom (Room.conversation p.conversationId) s
              else s)).filter
            (fun s => Room.conversation p.conversationId ∈ s.rooms)).map
            (fun s => s.sid) } := by
    simp [handleSendMessage, hmem, participantsOf_set_messages]
  rw [hred]
  constructor
  · -- at-least-once delivery to every member connection, via the direct emit
    intro s hs u hu hmemu
    simp only [List.mem_append, List.mem_flatMap]
    left
    refine ⟨u, (mem_participantsOf _ _ _).2 hmemu, ?_⟩
    simp only [List.mem_map, List.mem_filter, decide_eq_true_eq]
    exact ⟨s, ⟨hs, hu⟩, rfl⟩
  · -- a recipient is a member connection or was already in the room
    intro s hs hrec
    rcases List.mem_append.1 hrec with hd | hr
    · -- direct emit: the recipient socket carries a member username
      rcases List.mem_flatMap.1 hd with ⟨u, hup, hmm⟩
      rcases List.mem_map.1 hmm with ⟨s', hs'f, hsid⟩
      have hs' := List.mem_filter.1 hs'f
      have husn : s'.username = some u := by
        have := hs'.2; simpa using this
      have : s' = s := hinj s' hs'.1 s hs hsid
      subst this
      exact Or.inl ⟨u, husn, (mem_participantsOf _ _ _).1 hup⟩
    · -- room broadcast: recipient is in the post-join room
      rcases List.mem_map.1 hr with ⟨s1, hs1f, hsid⟩
      have hs1 := List.mem_filter.1 hs1f
      rcases List.mem_map.1 hs1.1 with ⟨s0, hs0, hmap⟩
      have hroom : Room.conversation p.conversationId ∈ s1.rooms := by
        have := hs1.2; simpa using this
      have hsid0 : s0.sid = s.sid := by
        have h1 := joinStep_sid (Room.conversation p.conversationId)
          (s0.username.elim false (fun u =>
            (participantsOf st p.conversationId).contains u)) s0
        rw [hmap] at h1
        rw [h1] at hsid
        exact hsid
      have hs0s : s0 = s := hinj s0 hs0 s hs hsid0
      subst hs0s
      by_cases hc : (s0.username.elim false (fun u =>
          (participantsOf st p.conversationId).contains u)) = true
      · -- the socket was auto-joined: its username is a participant
        cases husn : s0.username with
        | none => rw [husn] at hc; simp at hc
        | some u =>
            rw [husn] at hc
            have hc' : u ∈ participantsOf st p.conversationId := by simpa using hc
            exact Or.inl ⟨u, rfl, (mem_participantsOf _ _ _).1 hc'⟩
      · -- not auto-joined: its room set was unchanged, so it was in the room
        rw [if_neg hc] at hmap
        rw [← hmap] at hroom
        exact Or.inr hroom

/-- Counterexample to C2 as stated: "dave" is not a member of
conversation 1, but his socket joined the room `conversation_1`
(`join_conversation` has no membership check, src/websocket.js 116-120),
so the step-7 room broadcast of alice's publish delivers `new_message`
to dave's connection (sid 20). -/
theorem c2_counterexample_nonmember_in_room_receives :
    isConversationMember pairStore 1 "dave" = false ∧
    (20 : Nat) ∈ (handleSendMessage false 10
      [{ sid := 10, username := some "alice", rooms := [] },
       { sid := 20, username := some "dave", rooms := [Room.conversation 1] }]
      pairStore
      { conversationId := 1, senderUsername := "alice", content := "hi",
        replyToMessageId := none }).newMessageTo := by
  decide

/-- Witness for the amended C2 theorem: in `pairStore`, bob's live
connection (sid 20) receives alice's publish. -/
theorem send_message_delivery_members_or_room_witness :
    (20 : Nat) ∈ (handleSendMessage false 10
      [{ sid := 10, username := some "alice", rooms := [] },
       { sid := 20, username := some "bob", rooms := [] }]
      pairStore
      { conversationId := 1, senderUsername := "alice", content := "hi",
        replyToMessageId := none }).newMessageTo :=
  (send_message_delivery_members_or_room 10
    [{ sid := 10, username := some "alice", rooms := [] },
     { sid := 20, username := some "bob", rooms := [] }]
    pairStore
    { conversationId := 1, senderUsername := "alice", content := "hi",
      replyToMessageId := none }
    (by decide) (by decide)).1
    { sid := 20, username := some "bob", rooms := [] } (by decide) "bob" rfl (by decide)

/-! ## Community chat (src/websocket.js lines 269-341 and 380-532)

`notify_community_conversation` (269-341): look up the conversation bound
to the community (`maybeSingle`); create it if absent; then upsert a
single `conversation_members` row for the requesting user only.

`send_community_message` (380-532): (1) check the payload's sender is an
approved community member; (2) look up the bound conversation; if absent,
create it and bulk-upsert a `conversation_members` row for **every**
currently-approved community member; (3) insert the message; (5) broadcast
`new_community_message` to the community-chat room; (6) emit it directly
to every approved member's sockets. -/

/-- Membership test of `send_community_message` step 1: an approved
`community_members` row for (communityId, username). -/
def isApprovedCommunityMember (st : Store) (cid : Nat) (u : String) : Bool :=
  st.community_members.any (fun m =>
    m.community_id = cid ∧ m.username = u ∧ m.status = "approved")

/-- The approved member usernames of a community. -/
def approvedMembers (st : Store) (cid : Nat) : List String :=
  (st.community_members.filter
    (fun m => m.community_id = cid ∧ m.status = "approved")).map (fun m => m.username)

/-- Does a `conversation_members` row with this key already exist? -/
def memberKeyExists (l : List MemberRow) (cid : Nat) (u : String) : Bool :=
  l.any (fun m => m.conversation_id = cid ∧ m.username = u)

/-- `upsert` on `conversation_members` with
`onConflict: "conversation_id,username"`: a row whose key already exists
leaves the table unchanged (only key columns are supplied), otherwise it
is appended. -/
def upsertMemberRow (l : List MemberRow) (r : MemberRow) : List MemberRow :=
  if memberKeyExists l r.conversation_id r.username then l
  else l ++ [r]

/-- Bulk upsert of `conversation_members` rows, in list order. -/
def upsertMemberRows (l : List MemberRow) (rows : List MemberRow) : List MemberRow :=
  rows.foldl upsertMemberRow l

/-- The conversations bound to a community (the `maybeSingle` query
`conversations.select.eq("community_id", cid)`). -/
def boundConversations (st : Store) (cid : Nat) : List ConvRow :=
  st.conversations.filter (fun c => c.community_id = some cid)

/-- Primitive effects of the community-chat handlers, in execution order:
store writes and socket emits. -/
inductive CommunityEffect where
  | insertConversation (c : ConvRow)
  | upsertConversationMembers (rows : List MemberRow)
  | insertMessage (m : MessageRow)
  | emitError (sid : Nat)
  | emitRoomMessage (room : Room) (messageId : Nat)
  | emitDirectMessage (sid : Nat) (messageId : Nat)
deriving DecidableEq, Repr

/-- `send_community_message` handler: returns the final store and the
ordered effect trace.  The `maybeSingle` lookup errors out (error emit,
nothing else) when more than one bound conversation exists. -/
def handleSendCommunityMessage (callerSid : Nat) (sockets : List Socket) (st : Store)
    (communityId : Nat) (senderUsername content : String) :
    Store × List CommunityEffect :=
  -- 1. sender must be an approved community member
  if ¬ isApprovedCommunityMember st communityId senderUsername then
    (st, [.emitError callerSid])
  else
    -- 2. get or create the bound conversation
    let afterResolve : Option (Nat × Store × List CommunityEffect) :=
      match boundConversations st communityId with
      | [c] => some (c.id, st, [])
      | [] =>
          let conv : ConvRow :=
            { id := st.nextConversationId, type := "community",
              community_id := some communityId, created_by := senderUsername }
          let st1 := { st with conversations := st.conversations ++ [conv],
                               nextConversationId := st.nextConversationId + 1 }
          let rows := (approvedMembers st1 communityId).map (fun u =>
            { conversation_id := conv.id, username := u, role := "member" })
          let st2 := { st1 with
            conversation_members := upsertMemberRows st1.conversation_members rows }
          some (conv.id, st2, [.insertConversation conv, .upsertConversationMembers rows])
      | _ => none
    match afterResolve with
    | none => (st, [.emitError callerSid])
    | some (conversationId, st', effs) =>
        -- 3. insert the message
        let msg : MessageRow :=
          { id := st'.nextMessageId, conversation_id := conversationId,
            sender_username := senderUsername, content := content,
            reply_to_message_id := none }
        let st'' := { st' with messages := st'.messages ++ [msg],
                               nextMessageId := st'.nextMessageId + 1 }
        -- 5. broadcast to the community-chat room, 6. direct emits
        let direct := (approvedMembers st'' communityId).flatMap (fun u =>
          (sockets.filter (fun s => s.username = some u)).map
            (fun s => CommunityEffect.emitDirectMessage s.sid msg.id))
        (st'', effs ++ [.insertMessage msg,
                        .emitRoomMessage (Room.communityChat communityId) msg.id] ++ direct)

/-- Bulk upsert acts as plain append when the incoming rows' keys are
pairwise distinct and none is already present. -/
theorem upsertMemberRows_append (rows : List MemberRow) (l : List MemberRow)
    (hpair : rows.Pairwise (fun a b =>
      ¬(a.conversation_id = b.conversation_id ∧ a.username = b.username)))
    (hfresh : ∀ r ∈ rows, ∀ m ∈ l,
      ¬(m.conversation_id = r.conversation_id ∧ m.username = r.username)) :
    upsertMemberRows l rows = l ++ rows := by
  induction rows generalizing l with
  | nil => simp [upsertMemberRows]
  | cons r rs ih =>
      have hany : memberKeyExists l r.conversation_id r.username = false := by
        simp only [memberKeyExists, List.any_eq_false, decide_eq_true_eq, not_and]
        intro m hm h1 h2
        exact hfresh r (by simp) m hm ⟨h1, h2⟩
      have hstep : upsertMemberRow l r = l ++ [r] := by
        simp [upsertMemberRow, hany]
      have hpair' := List.pairwise_cons.1 hpair
      have hfresh' : ∀ x ∈ rs, ∀ m ∈ l ++ [r],
          ¬(m.conversation_id = x.conversation_id ∧ m.username = x.username) := by
        intro x hx m hm
        rcases List.mem_append.1 hm with hm | hm
        · exact hfresh x (by simp [hx]) m hm
        · have hmr : m = r := by simpa using hm
          subst hmr
          exact hpair'.1 x hx
      calc upsertMemberRows l (r :: rs)
          = upsertMemberRows (upsertMemberRow l r) rs := rfl
        _ = upsertMemberRows (l ++ [r]) rs := by rw [hstep]
        _ = (l ++ [r]) ++ rs := ih (l ++ [r]) hpair'.2 hfresh'
        _ = l ++ (r :: rs) := by simp

/-- Changing the conversations table or the id counter leaves the
approved community member list unchanged: `approvedMembers` reads only
`community_members`. -/
theorem approvedMembers_set_conversations (st : Store) (C : List ConvRow) (n : Nat) (cid : Nat) :
    approvedMembers { st with conversations := C, nextConversationId := n } cid =
      approvedMembers st cid := rfl

/-- C7: confirmed.  When a community has no backing conversation, the
first message sent to its chat creates exactly one conversation bound to
that community and bulk-inserts every currently-approved community member
as a conversation member; in the effect trace the membership upsert
strictly precedes the room broadcast and the direct deliveries of the
message.  Hypotheses: fresh conversation id (store-assigned primary key)
and no duplicate approved usernames (unique key of community_members). -/
theorem community_first_message_creates_and_bulk_inserts
    (callerSid : Nat) (sockets : List Socket) (st : Store)
    (communityId : Nat) (sender content : String)
    (hnone : boundConversations st communityId = [])
    (happr : isApprovedCommunityMember st communityId sender = true)
    (hfresh : ∀ m ∈ st.conversation_members, m.conversation_id ≠ st.nextConversationId)
    (hnodup : (approvedMembers st communityId).Nodup) :
    handleSendCommunityMessage callerSid sockets st communityId sender content =
      ({ st with
          conversations := st.conversations ++
            [{ id := st.nextConversationId, type := "community",
               community_id := some communityId, created_by := sender }],
          conversation_members := st.conversation_members ++
            (approvedMembers st communityId).map (fun u =>
              { conversation_id := st.nextConversationId, username := u, role := "member" }),
          messages := st.messages ++
            [{ id := st.nextMessageId, conversation_id := st.nextConversationId,
               sender_username := sender, content := content, reply_to_message_id := none }],
          nextConversationId := st.nextConversationId + 1,
          nextMessageId := st.nextMessageId + 1 },
       [CommunityEffect.insertConversation
          { id := st.nextConversationId, type := "community",
            community_id := some communityId, created_by := sender },
        CommunityEffect.upsertConversationMembers
          ((approvedMembers st communityId).map (fun u =>
            { conversation_id := st.nextConversationId, username := u, role := "member" })),
        CommunityEffect.insertMessage
          { id := st.nextMessageId, conversation_id := st.nextConversationId,
            sender_username := sender, content := content, reply_to_message_id := none },
        CommunityEffect.emitRoomMessage (Room.communityChat communityId) st.nextMessageId] ++
       (approvedMembers st communityId).flatMap (fun u =>
         (sockets.filter (fun s => s.username = some u)).map
           (fun s => CommunityEffect.emitDirectMessage s.sid st.nextMessageId))) ∧
    boundConversations
      (handleSendCommunityMessage callerSid sockets st communityId sender content).1
      communityId =
      [{ id := st.nextConversationId, type := "community",
         community_id := some communityId, created_by := sender }] ∧
    ∀ u ∈ approvedMembers st communityId,
      ({ conversation_id := st.nextConversationId, username := u, role := "member" } : MemberRow) ∈
        (handleSendCommunityMessage callerSid sockets st communityId sender content).1.conversation_members := by
  have h0 : st.conversations.filter (fun c => c.community_id = some communityId) = [] := by
    simpa [boundConversations] using hnone
  have hup : upsertMemberRows st.conversation_members
      ((approvedMembers st communityId).map (fun u =>
        ({ conversation_id := st.nextConversationId, username := u, role := "member" } : MemberRow))) =
      st.conversation_members ++
      (approvedMembers st communityId).map (fun u =>
        { conversation_id := st.nextConversationId, username := u, role := "member" }) := by
    apply upsertMemberRows_append
    · rw [List.pairwise_map]
      refine hnodup.imp ?_
      intro a b hab hcon
      exact hab hcon.2
    · intro r hr m hm hcon
      rcases List.mem_map.1 hr with ⟨u, _, hru⟩
      subst hru
      exact hfresh m hm hcon.1
  have heq : handleSendCommunityMessage callerSid sockets st communityId sender content =
      ({ st with
          conversations := st.conversations ++
            [{ id := st.nextConversationId, type := "community",
               community_id := some communityId, created_by := sender }],
          conversation_members := st.conversation_members ++
            (approvedMembers st communityId).map (fun u =>
              { conversation_id := st.nextConversationId, username := u, role := "member" }),
          messages := st.messages ++
            [{ id := st.nextMessageId, conversation_id := st.nextConversationId,
               sender_username := sender, content := content, reply_to_message_id := none }],
          nextConversationId := st.nextConversationId + 1,
          nextMessageId := st.nextMessageId + 1 },
       [CommunityEffect.insertConversation
          { id := st.nextConversationId, type := "community",
            community_id := some communityId, created_by := sender },
        CommunityEffect.upsertConversationMembers
          ((approvedMembers st communityId).map (fun u =>
            { conversation_id := st.nextConversationId, username := u, role := "member" })),
        CommunityEffect.insertMessage
          { id := st.nextMessageId, conversation_id := st.nextConversationId,
            sender_username := sender, content := content, reply_to_message_id := none },
        CommunityEffect.emitRoomMessage (Room.communityChat communityId) st.nextMessageId] ++
       (approvedMembers st communityId).flatMap (fun u =>
         (sockets.filter (fun s => s.username = some u)).map
           (fun s => CommunityEffect.emitDirectMessage s.sid st.nextMessageId))) := by
    simp [handleSendCommunityMessage, happr, hnone, approvedMembers_set_conversations, hup]
    simp [approvedMembers]
  refine ⟨heq, ?_, ?_⟩
  · rw [heq]
    simp [boundConversations, List.filter_append, h0]
  · intro u hu
    rw [heq]
    simp only [List.mem_append]
    right
    exact List.mem_map.2 ⟨u, hu, rfl⟩

/-- Fixture: community 7 (spec §8 scenario) with approved members x and y,
no backing conversation yet, next conversation id 99. -/
def communityStore : Store :=
  { users := ["x", "y"], conversations := [], conversation_members := [],
    messages := [], message_reads := [],
    community_members :=
      [{ community_id := 7, username := "x", role := "admin", status := "approved" },
       { community_id := 7, username := "y", role := "member", status := "approved" }],
    community_join_requests := [],
    nextConversationId := 99, nextMessageId := 1 }

/-- Witness for C7: the first message to community 7's chat creates
conversation 99 and inserts approved member y (who is not the sender)
into its membership. -/
theorem community_first_message_creates_and_bulk_inserts_witness :
    ({ conversation_id := 99, username := "y", role := "member" } : MemberRow) ∈
      (handleSendCommunityMessage 10 [] communityStore 7 "x" "hello").1.conversation_members :=
  (community_first_message_creates_and_bulk_inserts 10 [] communityStore 7 "x" "hello"
    (by decide) (by decide) (by decide) (by decide)).2.2 "y" (by decide)

/-! ## notify_community_conversation (src/websocket.js lines 269-341)

Get-or-create of the community conversation triggered when a user joins a
community: look up the bound conversation (`maybeSingle`), create it if
absent, then upsert a `conversation_members` row **for the requesting user
only**, emit `community_conversation_ready` and join the caller to the
community-chat room. -/

/-- `notify_community_conversation` handler: returns the store, the
caller socket (auto-joined on success) and whether
`community_conversation_ready` was emitted. -/
def handleNotifyCommunityConversation (caller : Socket) (st : Store)
    (communityId : Nat) (username : String) : Store × Socket × Bool :=
  match boundConversations st communityId with
  | [c] =>
      let members := upsertMemberRows st.conversation_members
        [{ conversation_id := c.id, username := username, role := "member" }]
      ({ st with conversation_members := members },
       joinRoom (Room.communityChat communityId) caller, true)
  | [] =>
      let conv : ConvRow :=
        { id := st.nextConversationId, type := "community",
          community_id := some communityId, created_by := username }
      let members := upsertMemberRows st.conversation_members
        [{ conversation_id := conv.id, username := username, role := "member" }]
      ({ st with conversations := st.conversations ++ [conv],
                 nextConversationId := st.nextConversationId + 1,
                 conversation_members := members },
       joinRoom (Room.communityChat communityId) caller, true)
  | _ => (st, caller, false)

/-- C9: confirmed.  When no backing conversation exists and it is created
via `notify_community_conversation`, only the requesting user is inserted
as a conversation member: the new conversation's membership is exactly
the one row for `username`; the other approved community members are not
bulk-inserted on this path. -/
theorem notify_creation_inserts_only_requester
    (caller : Socket) (st : Store) (communityId : Nat) (username : String)
    (hnone : boundConversations st communityId = [])
    (hfresh : ∀ m ∈ st.conversation_members, m.conversation_id ≠ st.nextConversationId) :
    (handleNotifyCommunityConversation caller st communityId username).1.conversations =
      st.conversations ++
        [{ id := st.nextConversationId, type := "community",
           community_id := some communityId, created_by := username }] ∧
    (handleNotifyCommunityConversation caller st communityId username).1.conversation_members =
      st.conversation_members ++
        [{ conversation_id := st.nextConversationId, username := username, role := "member" }] ∧
    (handleNotifyCommunityConversation caller st communityId username).1.conversation_members.filter
        (fun m => m.conversation_id = st.nextConversationId) =
      [{ conversation_id := st.nextConversationId, username := username, role := "member" }] := by
  have hup : upsertMemberRows st.conversation_members
      [{ conversation_id := st.nextConversationId, username := username, role := "member" }] =
      st.conversation_members ++
        [{ conversation_id := st.nextConversationId, username := username, role := "member" }] := by
    apply upsertMemberRows_append
    · simp
    · intro r hr m hm hcon
      have hrr : r = ({ conversation_id := st.nextConversationId, username := username, role := "member" } : MemberRow) := by
        simpa using hr
      subst hrr
      exact hfresh m hm hcon.1
  have hfil : st.conversation_members.filter
      (fun m => m.conversation_id = st.nextConversationId) = [] := by
    rw [List.filter_eq_nil_iff]
    intro m hm
    simpa using hfresh m hm
  refine ⟨?_, ?_, ?_⟩
  · simp [handleNotifyCommunityConversation, hnone, hup]
  · simp [handleNotifyCommunityConversation, hnone, hup]
  · simp [handleNotifyCommunityConversation, hnone, hup, List.filter_append, hfil]

/-- Witness for C9: user x triggers `notify_community_conversation` for
community 7 (approved members x and y): conversation 99 is created with
exactly x as its one member — y, though approved, is not inserted. -/
theorem notify_creation_inserts_only_requester_witness :
    (handleNotifyCommunityConversation ⟨10, some "x", []⟩ communityStore 7 "x").1.conversation_members.filter
        (fun m => m.conversation_id = 99) =
      [{ conversation_id := 99, username := "x", role := "member" }] :=
  (notify_creation_inserts_only_requester ⟨10, some "x", []⟩ communityStore 7 "x"
    (by decide) (by decide)).2.2

/-! ## Community membership changes (src/unnamed/part_007)

`DELETE /:id/join` (lines 397-419): delete the `community_members` row
for (communityId, username), recompute the member count, respond — the
handler never touches `conversation_members`.  The kick handler
`DELETE /:id/members/:username` (lines 1118-1156) performs the same bare
`community_members` delete after its permission checks, also without
touching `conversation_members`.

`POST /:id/join-requests/:requestId` (lines 1358-1440): look up the
pending request, update its status; on approve, insert a
`community_members` row and, when a conversation bound to the community
exists (`.single()` finds exactly one), upsert a `conversation_members`
row for the approved user. -/

/-- Leave-community handler: its only table write besides the member
count is the `community_members` delete. -/
def leaveCommunity (st : Store) (communityId : Nat) (username : String) : Store :=
  let remaining := st.community_members.filter
    (fun m => ¬(m.community_id = communityId ∧ m.username = username))
  { st with community_members := remaining }

/-- Review-join-request handler (`action` true = approve).  The inserted
`community_members` row carries the store's default status "approved". -/
def reviewJoinRequest (st : Store) (communityId requestId : Nat) (approve : Bool) : Store :=
  match st.community_join_requests.find?
      (fun r => r.id = requestId ∧ r.community_id = communityId) with
  | none => st
  | some request =>
      if request.status ≠ "pending" then st
      else
        let newStatus := if approve then "approved" else "rejected"
        let updatedRequests := st.community_join_requests.map
          (fun r => if r.id = requestId then { r with status := newStatus } else r)
        let st1 := { st with community_join_requests := updatedRequests }
        if approve then
          let newMember : CommunityMemberRow :=
            { community_id := communityId, username := request.username,
              role := "member", status := "approved" }
          let st2 := { st1 with community_members := st1.community_members ++ [newMember] }
          match boundConversations st2 communityId with
          | [c] =>
              let members := upsertMemberRows st2.conversation_members
                [{ conversation_id := c.id, username := request.username, role := "member" }]
              { st2 with conversation_members := members }
          | _ => st2
        else st1

/-- Fixture for C6: community 1 with backing conversation 10; bob is an
approved community member and a conversation member; carol has a pending
join request (id 5). -/
def c6Store : Store :=
  { users := ["alice", "bob", "carol"],
    conversations := [{ id := 10, type := "community", community_id := some 1, created_by := "alice" }],
    conversation_members :=
      [{ conversation_id := 10, username := "alice", role := "member" },
       { conversation_id := 10, username := "bob", role := "member" }],
    messages := [], message_reads := [],
    community_members :=
      [{ community_id := 1, username := "alice", role := "admin", status := "approved" },
       { community_id := 1, username := "bob", role := "member", status := "approved" }],
    community_join_requests :=
      [{ id := 5, community_id := 1, username := "carol", status := "pending" }],
    nextConversationId := 11, nextMessageId := 1 }

/-- C6: refuted on the removal half.  Approving carol's join request for
community 1 (which has backing conversation 10) does insert her into
`conversation_members`; but bob's leaving community 1 deletes only his
`community_members` row and leaves `conversation_members` untouched —
bob remains a member of conversation 10, although the claim (and spec
§3/§4.3) require removal to be mirrored synchronously. -/
theorem c6_leave_not_mirrored_into_conversation :
    (({ conversation_id := 10, username := "carol", role := "member" } : MemberRow) ∈
        (reviewJoinRequest c6Store 1 5 true).conversation_members) ∧
    (leaveCommunity c6Store 1 "bob").community_members =
      [{ community_id := 1, username := "alice", role := "admin", status := "approved" }] ∧
    (leaveCommunity c6Store 1 "bob").conversation_members = c6Store.conversation_members ∧
    ({ conversation_id := 10, username := "bob", role := "member" } : MemberRow) ∈
      (leaveCommunity c6Store 1 "bob").conversation_members := by
  decide

/-! ## Conversation Identity Resolver — POST /conversations
(src/unnamed/part_003 lines 92-178)

Get-or-create of a conversation: validate inputs and that every member
exists; for `type = "dm"` require exactly two distinct members, intersect
the two users' conversation-id sets, filter the common ids to `type=dm`
candidates, and reuse the first candidate whose member-name set is exactly
the pair (200 + `reused: true`, no writes); otherwise insert a new
conversation and upsert its member rows (201). -/

/-- JS `Array.from(new Set(list))`: deduplicate keeping the first
occurrence of each element, in insertion order. -/
def uniqFirst (l : List String) : List String :=
  l.foldl (fun acc x => if acc.contains x then acc else acc ++ [x]) []

/-- The conversation ids a user is a member of. -/
def memberConvIds (st : Store) (u : String) : List Nat :=
  (st.conversation_members.filter (fun m => m.username = u)).map
    (fun m => m.conversation_id)

/-- The member usernames of a conversation. -/
def memberNamesOf (st : Store) (cid : Nat) : List String :=
  (st.conversation_members.filter (fun m => m.conversation_id = cid)).map
    (fun m => m.username)

/-- The reuse test on a candidate: its member-name set has exactly two
elements and contains both users (part_003 line 148). -/
def dmPairMatch (st : Store) (cid : Nat) (u1 u2 : String) : Bool :=
  (uniqFirst (memberNamesOf st cid)).length = 2 ∧
  (memberNamesOf st cid).contains u1 ∧ (memberNamesOf st cid).contains u2

/-- The dm-reuse scan (part_003 lines 110-153): common conversations of
the two users, filtered to `type = "dm"`, first candidate whose member
set is exactly the pair. -/
def dmReuse (st : Store) (uniqMembers : List String) : Option Nat :=
  match uniqMembers with
  | [u1, u2] =>
      let setU1 := memberConvIds st u1
      let commonIds := (memberConvIds st u2).filter (fun i => setU1.contains i)
      let candidates := st.conversations.filter
        (fun c => commonIds.contains c.id ∧ c.type = "dm")
      (candidates.find? (fun c => dmPairMatch st c.id u1 u2)).map (fun c => c.id)
  | _ => none

/-- Result of POST /conversations: HTTP status, the `reused` flag of the
200 response, the conversation id returned, and the store after the
call.  (The conversation `title` column is not modelled — no claim
mentions it.) -/
structure CreateConvResult where
  status : Nat
  reused : Bool
  conversationId : Option Nat
  store : Store
deriving DecidableEq, Repr

/-- POST /conversations handler. -/
def createConversation (st : Store) (type created_by : String)
    (members : List String) : CreateConvResult :=
  if type = "" ∨ created_by = "" then
    { status := 400, reused := false, conversationId := none, store := st }
  else
    let uniqMembers := uniqFirst (created_by :: members)
    if ¬ uniqMembers.all (fun u => st.users.contains u) then
      { status := 400, reused := false, conversationId := none, store := st }
    else if type = "dm" ∧ uniqMembers.length ≠ 2 then
      { status := 400, reused := false, conversationId := none, store := st }
    else
      match (if type = "dm" then dmReuse st uniqMembers else none) with
      | some cid =>
          { status := 200, reused := true, conversationId := some cid, store := st }
      | none =>
          let conv : ConvRow :=
            { id := st.nextConversationId, type := type,
              community_id := none, created_by := created_by }
          let rows := uniqMembers.map (fun u =>
            ({ conversation_id := conv.id, username := u,
               role := if u = created_by then "admin" else "member" } : MemberRow))
          let st1 := { st with
            conversations := st.conversations ++ [conv],
            conversation_members := upsertMemberRows st.conversation_members rows,
            nextConversationId := st.nextConversationId + 1 }
          { status := 201, reused := false, conversationId := some conv.id, store := st1 }

/-- A conversation id is among a user's conversation ids iff the user is
among that conversation's member names — both read the same table. -/
theorem mem_memberConvIds (st : Store) (cid : Nat) (u : String) :
    cid ∈ memberConvIds st u ↔ u ∈ memberNamesOf st cid := by
  simp only [memberConvIds, memberNamesOf, List.mem_map, List.mem_filter,
    decide_eq_true_eq]
  constructor
  · rintro ⟨m, ⟨hm, h1⟩, h2⟩
    exact ⟨m, ⟨hm, h2⟩, h1⟩
  · rintro ⟨m, ⟨hm, h1⟩, h2⟩
    exact ⟨m, ⟨hm, h2⟩, h1⟩

/-- C4: confirmed.  Once a direct conversation for the unordered pair
{A, B} exists (and is the only one matching the pair — the state every
earlier call leaves behind), every later call returns that conversation's
id with status 200 and `reused: true` and leaves the store unchanged: no
conversation row and no membership row is created.  The reuse test itself
accepts a candidate only if its type is "dm" and its member set is
exactly {A, B} (`dmPairMatch`). -/
theorem direct_get_or_create_idempotent_reuse
    (st : Store) (A B : String) (c : ConvRow)
    (hA : A ≠ "") (hAB : A ≠ B)
    (hAu : st.users.contains A = true) (hBu : st.users.contains B = true)
    (hc : c ∈ st.conversations) (hdm : c.type = "dm")
    (hmatch : dmPairMatch st c.id A B = true)
    (huniq : ∀ c' ∈ st.conversations, c'.type = "dm" →
      dmPairMatch st c'.id A B = true → c' = c) :
    createConversation st "dm" A [B] =
      { status := 200, reused := true, conversationId := some c.id, store := st } := by
  have hBA : B ≠ A := fun h => hAB h.symm
  have huf : uniqFirst [A, B] = [A, B] := by
    simp [uniqFirst, hBA]
  have hcontains : (memberNamesOf st c.id).contains A = true ∧
      (memberNamesOf st c.id).contains B = true := by
    have := hmatch
    simp only [dmPairMatch, Bool.and_eq_true, decide_eq_true_eq] at this
    exact ⟨by simpa using this.2.1, by simpa using this.2.2⟩
  have hcA : c.id ∈ memberConvIds st A :=
    (mem_memberConvIds st c.id A).2 (by simpa using hcontains.1)
  have hcB : c.id ∈ memberConvIds st B :=
    (mem_memberConvIds st c.id B).2 (by simpa using hcontains.2)
  have hccand : c ∈ st.conversations.filter
      (fun c' => ((memberConvIds st B).filter
        (fun i => (memberConvIds st A).contains i)).contains c'.id ∧ c'.type = "dm") := by
    rw [List.mem_filter]
    refine ⟨hc, ?_⟩
    simp only [decide_eq_true_eq, List.contains_iff_exists_mem_beq]
    constructor
    · exact ⟨c.id, List.mem_filter.2 ⟨hcB, by simpa using hcA⟩, by simp⟩
    · exact hdm
  have hfind : (st.conversations.filter
      (fun c' => ((memberConvIds st B).filter
        (fun i => (memberConvIds st A).contains i)).contains c'.id ∧ c'.type = "dm")).find?
      (fun c' => dmPairMatch st c'.id A B) = some c := by
    have hsome : ((st.conversations.filter
        (fun c' => ((memberConvIds st B).filter
          (fun i => (memberConvIds st A).contains i)).contains c'.id ∧ c'.type = "dm")).find?
        (fun c' => dmPairMatch st c'.id A B)).isSome := by
      rw [List.find?_isSome]
      exact ⟨c, hccand, hmatch⟩
    obtain ⟨y, hy⟩ := Option.isSome_iff_exists.1 hsome
    have hpy : dmPairMatch st y.id A B = true := by
      simpa using List.find?_some hy
    have hymem := List.mem_of_find?_eq_some hy
    rw [List.mem_filter] at hymem
    have hytype : y.type = "dm" := by
      have := hymem.2
      simp only [decide_eq_true_eq] at this
      exact this.2
    have : y = c := huniq y hymem.1 hytype hpy
    rw [this] at hy
    exact hy
  have hreuse : dmReuse st [A, B] = some c.id := by
    simp only [dmReuse]
    rw [hfind]
    rfl
  simp [createConversation, huf, hreuse, hA, hAu, hBu]
  exact ⟨by simpa using hAu, by simpa using hBu⟩

/-- Witness for C4: in `pairStore` (existing dm conversation 1 between
alice and bob) a later get-or-create call for the pair returns 200 with
`reused: true`, id 1, and an unchanged store. -/
theorem direct_get_or_create_idempotent_reuse_witness :
    createConversation pairStore "dm" "alice" ["bob"] =
      { status := 200, reused := true, conversationId := some 1, store := pairStore } :=
  direct_get_or_create_idempotent_reuse pairStore "alice" "bob"
    { id := 1, type := "dm", community_id := none, created_by := "alice" }
    (by decide) (by decide) (by decide) (by decide) (by decide) (by decide)
    (by decide) (by decide)

/-! ## Read-State & Unread Accounting — GET /conversations
(src/unnamed/part_003 lines 185-293 and 370-398)

After resolving the viewer's conversation ids, the route computes unread
counts from the view `v_conversation_overview` when available; otherwise
a batch fallback (lines 250-293) runs: one query for the (id,
conversation_id) of every message in those conversations, one query for
the viewer's `message_reads` rows restricted to those message ids, then a
per-conversation count of the fetched messages whose id is not in the
read set.  A store error in either fallback query is swallowed: every
conversation's unread count is set to 0 (lines 284-291) and the route
still responds 200.  Only the (conversation id, unread_count) projection
of the response is modelled; the last-message / participant / community
enrichment of the response rows does not touch unread accounting. -/

/-- The counting loop of the fallback (lines 272-283): for each
conversation id, the number of fetched messages in that conversation
whose id is not in the read set (`unreadCounts.get(convId) || 0`).
Message entries are (id, conversation_id) pairs as selected by the query. -/
def computeUnreadCounts (convIds : List Nat) (allConvMsgs : List (Nat × Nat))
    (readIds : List Nat) : List (Nat × Nat) :=
  convIds.map (fun cid =>
    (cid, allConvMsgs.countP (fun m => m.2 = cid ∧ ¬ readIds.contains m.1)))

/-- The fallback evaluated against the store's tables, both queries taken
from the same message-id snapshot `allMsgIds`. -/
def fallbackUnread (st : Store) (viewer : String) (convIds : List Nat) :
    List (Nat × Nat) :=
  let allConvMsgs :=
    (st.messages.filter (fun m => convIds.contains m.conversation_id)).map
      (fun m => (m.id, m.conversation_id))
  let allMsgIds := allConvMsgs.map (fun m => m.1)
  let allReads :=
    (st.message_reads.filter
      (fun r => r.username = viewer ∧ allMsgIds.contains r.message_id)).map
      (fun r => r.message_id)
  computeUnreadCounts convIds allConvMsgs allReads

/-- All message ids the viewer has read, across the whole store. -/
def viewerReadIds (st : Store) (viewer : String) : List Nat :=
  (st.message_reads.filter (fun r => r.username = viewer)).map
    (fun r => r.message_id)

/-- The spec's formula, stated from the spec's words for comparison with
the code's fallback: unread_count(conv, user) = total_messages(conv) −
|read_message_ids(user) ∩ message_ids(conv)|. -/
def specUnreadCount (st : Store) (viewer : String) (cid : Nat) : Nat :=
  (st.messages.filter (fun m => m.conversation_id = cid)).length -
    (((st.messages.filter (fun m => m.conversation_id = cid)).map
        (fun m => m.id)).toFinset ∩ (viewerReadIds st viewer).toFinset).card

/-- Counting the not-read messages of a list equals its length minus the
cardinality of (its ids ∩ the read set), provided the ids are distinct. -/
theorem countP_unread_eq (msgs : List MessageRow) (reads : List Nat)
    (hnd : (msgs.map (fun m => m.id)).Nodup) :
    msgs.countP (fun m => ¬ reads.contains m.id) =
      msgs.length - ((msgs.map (fun m => m.id)).toFinset ∩ reads.toFinset).card := by
  have hsplit := List.length_eq_countP_add_countP (fun m => reads.contains m.id) msgs
  have hcnt : msgs.countP (fun m => reads.contains m.id) =
      ((msgs.map (fun m => m.id)).toFinset ∩ reads.toFinset).card := by
    rw [List.countP_eq_length_filter]
    have hmapfil : List.filter (fun i => reads.contains i) (msgs.map (fun m => m.id)) =
        List.map (fun m => m.id) (msgs.filter (fun m => reads.contains m.id)) := by
      rw [List.filter_map]
      rfl
    calc (msgs.filter (fun m => reads.contains m.id)).length
        = ((msgs.filter (fun m => reads.contains m.id)).map (fun m => m.id)).length := by
          rw [List.length_map]
      _ = ((msgs.map (fun m => m.id)).filter (fun i => reads.contains i)).length := by
          rw [hmapfil]
      _ = ((msgs.map (fun m => m.id)).filter (fun i => reads.contains i)).toFinset.card :=
          (List.toFinset_card_of_nodup (hnd.filter _)).symm
      _ = ((msgs.map (fun m => m.id)).toFinset.filter
            (fun i => reads.contains i = true)).card := by
          rw [List.toFinset_filter]
      _ = ((msgs.map (fun m => m.id)).toFinset ∩ reads.toFinset).card := by
          congr 1
          rw [← Finset.filter_mem_eq_inter]
          apply Finset.filter_congr
          intro x _
          simp
  have hneg : msgs.countP (fun m => ¬ reads.contains m.id) =
      msgs.length - msgs.countP (fun m => reads.contains m.id) := by
    have h2 : msgs.countP (fun m => ¬ reads.contains m.id) =
        msgs.countP (fun a => decide ¬ (fun m => reads.contains m.id) a = true) := by
      apply List.countP_congr
      intro x _
      simp
    omega
  rw [hneg, hcnt]

/-- C3: confirmed.  For every conversation in the requested set, the
fallback's unread count equals total_messages(conv) minus the number of
the viewer's read rows whose message ids lie in the conversation's
message-id set, both taken from the same snapshot — the spec's formula.
The single hypothesis is that message ids are distinct (the store's
primary key). -/
theorem unread_fallback_matches_spec
    (st : Store) (viewer : String) (convIds : List Nat)
    (hids : (st.messages.map (fun m => m.id)).Nodup) :
    fallbackUnread st viewer convIds =
      convIds.map (fun cid => (cid, specUnreadCount st viewer cid)) := by
  unfold fallbackUnread computeUnreadCounts
  apply List.map_congr_left
  intro cid hcid
  have hnd' : ((st.messages.filter (fun m => m.conversation_id = cid)).map
      (fun m => m.id)).Nodup :=
    List.Nodup.sublist (List.Sublist.map _ (List.filter_sublist _)) hids
  refine congrArg (Prod.mk cid) ?_
  unfold specUnreadCount
  rw [← countP_unread_eq _ _ hnd']
  rw [List.countP_map]
  rw [List.countP_eq_length_filter, List.countP_eq_length_filter]
  rw [List.filter_filter, List.filter_filter]
  congr 1
  apply List.filter_congr
  intro m hm
  rw [Bool.eq_iff_iff]
  simp only [Function.comp, Bool.and_eq_true, decide_eq_true_eq]
  constructor
  · rintro ⟨⟨h1, h2⟩, _⟩
    refine ⟨?_, h1⟩
    intro hv
    apply h2
    have hv' : m.id ∈ viewerReadIds st viewer := by simpa using hv
    simp only [viewerReadIds, List.mem_map, List.mem_filter,
      decide_eq_true_eq] at hv'
    obtain ⟨r, ⟨hr, hru⟩, hrid⟩ := hv'
    have hmid : m.id ∈ ((st.messages.filter
        (fun x => convIds.contains x.conversation_id)).map
        (fun x => (x.id, x.conversation_id))).map (fun x => x.1) := by
      simp only [List.mem_map, List.mem_filter]
      refine ⟨(m.id, m.conversation_id), ⟨m, ⟨hm, ?_⟩, rfl⟩, rfl⟩
      rw [h1]
      simpa using hcid
    have : m.id ∈ (st.message_reads.filter
        (fun r => r.username = viewer ∧
          (((st.messages.filter (fun x => convIds.contains x.conversation_id)).map
            (fun x => (x.id, x.conversation_id))).map (fun x => x.1)).contains
            r.message_id)).map (fun r => r.message_id) := by
      simp only [List.mem_map, List.mem_filter, decide_eq_true_eq]
      refine ⟨r, ⟨hr, hru, ?_⟩, hrid⟩
      rw [hrid]
      simpa using hmid
    simpa using this
  · rintro ⟨h2, h1⟩
    refine ⟨⟨h1, ?_⟩, ?_⟩
    · intro ha
      apply h2
      have ha' : m.id ∈ (st.message_reads.filter
          (fun r => r.username = viewer ∧
            (((st.messages.filter (fun x => convIds.contains x.conversation_id)).map
              (fun x => (x.id, x.conversation_id))).map (fun x => x.1)).contains
              r.message_id)).map (fun r => r.message_id) := by simpa using ha
      simp only [List.mem_map, List.mem_filter, decide_eq_true_eq] at ha'
      obtain ⟨r, ⟨hr, hru, _⟩, hrid⟩ := ha'
      have : m.id ∈ viewerReadIds st viewer := by
        simp only [viewerReadIds, List.mem_map, List.mem_filter,
          decide_eq_true_eq]
        exact ⟨r, ⟨hr, hru⟩, hrid⟩
      simpa using this
    · rw [h1]
      simpa using hcid

/-- Fixture: two conversations with messages 1,2 in conversation 1 and
message 3 in conversation 2; bob has read messages 1 and 3. -/
def readStore : Store :=
  { users := ["alice", "bob"],
    conversations :=
      [{ id := 1, type := "dm", community_id := none, created_by := "alice" },
       { id := 2, type := "dm", community_id := none, created_by := "alice" }],
    conversation_members :=
      [{ conversation_id := 1, username := "alice", role := "admin" },
       { conversation_id := 1, username := "bob", role := "member" }],
    messages :=
      [{ id := 1, conversation_id := 1, sender_username := "alice", content := "hi",
         reply_to_message_id := none },
       { id := 2, conversation_id := 1, sender_username := "alice", content := "there",
         reply_to_message_id := none },
       { id := 3, conversation_id := 2, sender_username := "alice", content := "x",
         reply_to_message_id := none }],
    message_reads := [{ message_id := 1, username := "bob" },
                      { message_id := 3, username := "bob" }],
    community_members := [], community_join_requests := [],
    nextConversationId := 3, nextMessageId := 4 }

/-- Witness for C3 at `readStore`: the fallback for bob over
conversations 1 and 2 equals the spec formula on both. -/
theorem unread_fallback_matches_spec_witness :
    fallbackUnread readStore "bob" [1, 2] =
      [(1, specUnreadCount readStore "bob" 1), (2, specUnreadCount readStore "bob" 2)] :=
  unread_fallback_matches_spec readStore "bob" [1, 2] (by decide)

/-- The unread phase of GET /conversations (lines 232-293): the view when
available, otherwise the fallback; each fallback query result is an
`Option` (`none` models the checked store error of that query). -/
def getConversationsUnread (convIds : List Nat)
    (viewRes : Option (List (Nat × Nat)))
    (msgsRes : Option (List (Nat × Nat)))
    (readsRes : Option (List Nat)) : List (Nat × Nat) :=
  match viewRes with
  | some overview => convIds.map (fun c =>
      (c, ((overview.find? (fun o => o.1 = c)).map (fun o => o.2)).getD 0))
  | none =>
      match msgsRes with
      | none => convIds.map (fun c => (c, 0))
      | some allConvMsgs =>
          match readsRes with
          | none => convIds.map (fun c => (c, 0))
          | some readIds => computeUnreadCounts convIds allConvMsgs readIds

/-- GET /conversations route skeleton: the queries whose errors are
`throw`n (membership, conversations, last messages) produce a 500
(`Except.error`), while the unread phase never does; the response is
projected to (conversation id, unread_count). -/
def listConversationsRoute (viewer : String)
    (membershipRes : Option (List Nat)) (convsRes lastRes : Option Unit)
    (viewRes : Option (List (Nat × Nat))) (msgsRes : Option (List (Nat × Nat)))
    (readsRes : Option (List Nat)) : Except String (List (Nat × Nat)) :=
  if viewer = "" then .error "Missing user."
  else
    match membershipRes with
    | none => .error "Server error while listing conversations."
    | some convIds =>
        if convIds.isEmpty then .ok []
        else
          match convsRes with
          | none => .error "Server error while listing conversations."
          | some _ =>
              match lastRes with
              | none => .error "Server error while listing conversations."
              | some _ => .ok (getConversationsUnread convIds viewRes msgsRes readsRes)

/-- C10: confirmed.  With the view unavailable, a store error in either
fallback query (the conversation message ids or the viewer's read rows)
is not surfaced: the route still succeeds and reports unread count 0 for
every requested conversation. -/
theorem unread_fallback_error_not_surfaced
    (viewer : String) (convIds : List Nat)
    (msgsRes : Option (List (Nat × Nat))) (readsRes : Option (List Nat))
    (hviewer : viewer ≠ "")
    (herr : msgsRes = none ∨ readsRes = none) :
    listConversationsRoute viewer (some convIds) (some ()) (some ()) none
        msgsRes readsRes =
      .ok (convIds.map (fun c => (c, 0))) := by
  by_cases hconv : convIds.isEmpty
  · have hnil : convIds = [] := by simpa using hconv
    subst hnil
    simp [listConversationsRoute, hviewer]
  · rcases herr with h | h
    · subst h
      simp [listConversationsRoute, getConversationsUnread, hviewer, hconv]
    · subst h
      cases msgsRes with
      | none => simp [listConversationsRoute, getConversationsUnread, hviewer, hconv]
      | some msgs => simp [listConversationsRoute, getConversationsUnread, hviewer, hconv]

/-- Witness for C10: viewer bob, conversations 1 and 2, view unavailable
and the message-ids query erroring — the route succeeds with zeros. -/
theorem unread_fallback_error_not_surfaced_witness :
    listConversationsRoute "bob" (some [1, 2]) (some ()) (some ()) none
        none (some []) =
      .ok [(1, 0), (2, 0)] :=
  unread_fallback_error_not_surfaced "bob" [1, 2] none (some []) (by decide)
    (Or.inl rfl)

end ConnectSphere
